import Mathlib

/-!
Verification of the echolog-v2 session recording and timeline-reconstruction
pipeline.  The TypeScript sources under src/ are shallowly embedded:

* JS numbers are modelled as rationals; a NaN produced by date arithmetic is
  modelled as `Option.none` (`Option ℚ`).
* A JS `Date` is modelled by its UTC calendar fields (`DateMs`); an *Invalid
  Date* is `Option.none` (`Option DateMs`).  `Date.prototype.getTime` is
  embedded as the usual proleptic-Gregorian day count (`daysFromCivil`).
* Fallible TypeScript functions (`throw`) return `Except String`.
-/

namespace EchoLog

/-- The UTC calendar fields of a JS `Date` with millisecond precision.
Field values are unvalidated here; `DateMs.ValidUTC` singles out real
calendar timestamps in the four-digit-year range. -/
structure DateMs where
  year : Nat
  month : Nat
  day : Nat
  hour : Nat
  minute : Nat
  second : Nat
  millis : Nat
deriving DecidableEq, Repr

/-- Gregorian leap-year rule. -/
def isLeapYear (y : Nat) : Bool :=
  (y % 4 == 0 && y % 100 != 0) || y % 400 == 0

/-- Days in a Gregorian month. -/
def daysInMonth (y m : Nat) : Nat :=
  if m = 2 then (if isLeapYear y then 29 else 28)
  else if m = 4 ∨ m = 6 ∨ m = 9 ∨ m = 11 then 30
  else 31

/-- `t` is a real UTC calendar timestamp with millisecond precision whose
year has four decimal digits (the range `Date.prototype.toISOString` prints
without an expanded-year sign). -/
def DateMs.ValidUTC (t : DateMs) : Prop :=
  t.year ≤ 9999 ∧ 1 ≤ t.month ∧ t.month ≤ 12 ∧ 1 ≤ t.day ∧
  t.day ≤ daysInMonth t.year t.month ∧
  t.hour ≤ 23 ∧ t.minute ≤ 59 ∧ t.second ≤ 59 ∧ t.millis ≤ 999

instance (t : DateMs) : Decidable t.ValidUTC := by
  unfold DateMs.ValidUTC; infer_instance

/-- Days from 1970-01-01 of a Gregorian date (standard civil-from-days
inverse, as used by every JS engine for `Date` arithmetic). -/
def daysFromCivil (y m d : Nat) : Int :=
  let yAdj : Int := (y : Int) - (if m ≤ 2 then 1 else 0)
  let era : Int := (if 0 ≤ yAdj then yAdj else yAdj - 399) / 400
  let yoe : Int := yAdj - era * 400
  let mp : Int := ((m : Int) + 9) % 12
  let doy : Int := (153 * mp + 2) / 5 + (d : Int) - 1
  let doe : Int := yoe * 365 + yoe / 4 - yoe / 100 + doy
  era * 146097 + doe - 719468

/-- `Date.prototype.getTime`: milliseconds since the epoch. -/
def DateMs.getTime (t : DateMs) : Int :=
  daysFromCivil t.year t.month t.day * 86400000 +
    ((t.hour * 3600000 + t.minute * 60000 + t.second * 1000 + t.millis : Nat) : Int)

/-- The character for decimal digit `n`. -/
def digitChar (n : Nat) : Char := Char.ofNat (48 + n)

/-- Fixed-width zero-padded decimal rendering, most significant digit
first; this is how `toISOString` prints each field. -/
def padNum : Nat → Nat → List Char
  | 0, _ => []
  | w + 1, k => digitChar (k / 10 ^ w % 10) :: padNum w k

/-- The characters of `date.toISOString()`:
`YYYY-MM-DDTHH:mm:ss.SSSZ`. -/
def isoChars (t : DateMs) : List Char :=
  padNum 4 t.year ++ '-' ::
    (padNum 2 t.month ++ '-' ::
      (padNum 2 t.day ++ 'T' ::
        (padNum 2 t.hour ++ ':' ::
          (padNum 2 t.minute ++ ':' ::
            (padNum 2 t.second ++ '.' ::
              (padNum 3 t.millis ++ ['Z']))))))

/-- The characters of the folder-name format `YYYY-MM-DD_HH-mm-ss-SSS`
(the source produces it from `toISOString()` by replacing `T` with `_`,
every colon with `-`, and the trailing `.SSSZ` with `-` followed by the
zero-padded `getMilliseconds()`, which for a UTC ISO string is exactly the
millisecond field rendered here). -/
def folderChars (t : DateMs) : List Char :=
  padNum 4 t.year ++ '-' ::
    (padNum 2 t.month ++ '-' ::
      (padNum 2 t.day ++ '_' ::
        (padNum 2 t.hour ++ '-' ::
          (padNum 2 t.minute ++ '-' ::
            (padNum 2 t.second ++ '-' :: padNum 3 t.millis)))))

/-- `formatTimestamp` from src/src/utils/recording.ts: folder format when
`isFolder`, otherwise the plain `toISOString()` file format. -/
def formatTimestamp (t : DateMs) (isFolder : Bool) : String :=
  if isFolder then String.mk (folderChars t) else String.mk (isoChars t)

/-- The ECMA-262 WhiteSpace/LineTerminator set recognized by
`String.prototype.trim`. -/
def jsWhitespace (c : Char) : Bool :=
  c == ' ' || c == '\t' || c == '\n' || c == '\r' ||
    c.toNat == 11 || c.toNat == 12 || c.toNat == 160 || c.toNat == 0x1680 ||
    (0x2000 ≤ c.toNat && c.toNat ≤ 0x200A) || c.toNat == 0x2028 ||
    c.toNat == 0x2029 || c.toNat == 0x202F || c.toNat == 0x205F ||
    c.toNat == 0x3000 || c.toNat == 0xFEFF

/-- `String.prototype.trim`: strip leading and trailing whitespace. -/
def jsTrim (s : String) : String :=
  String.mk (((s.data.dropWhile jsWhitespace).reverse.dropWhile jsWhitespace).reverse)

/-- `String.prototype.startsWith`. -/
def jsStartsWith (s pre : String) : Bool :=
  pre.data.isPrefixOf s.data

/-- `String.prototype.endsWith`. -/
def jsEndsWith (s suffix : String) : Bool :=
  suffix.data.reverse.isPrefixOf s.data.reverse

/-- A stable sort parameterized by a boolean `le`, inserting each element
before the later-positioned elements it compares equal to.  ECMA-262
requires `Array.prototype.sort` to be stable, so for the consistent
comparators used here any stable algorithm is the same function. -/
def stableInsert (le : α → α → Bool) (x : α) : List α → List α
  | [] => [x]
  | y :: ys => if le y x && !le x y then y :: stableInsert le x ys else x :: y :: ys

/-- Stable insertion sort (see `stableInsert`). -/
def stableSort (le : α → α → Bool) : List α → List α
  | [] => []
  | x :: xs => stableInsert le x (stableSort le xs)

/-- A character the sanitizer keeps: the JS character class `[a-zA-Z0-9_-]`. -/
def safeChar (c : Char) : Bool :=
  c.isAlpha || c.isDigit || c == '_' || c == '-'

/-- `sanitizeUsername` from src/src/utils/recording.ts:
`username.replace(/[^a-zA-Z0-9_-]/g, "_")`. -/
def sanitizeUsername (s : String) : String :=
  String.mk (s.data.map fun c => if safeChar c then c else '_')

/-- Read exactly `w` decimal digits off the front of `cs`, extending the
accumulator `acc`; fails if a non-digit (or the end) is hit first.  This is
the exact semantics of the fixed-width regex atom `\d{w}`. -/
def readDigits : Nat → Nat → List Char → Option (Nat × List Char)
  | acc, 0, cs => some (acc, cs)
  | _, _ + 1, [] => none
  | acc, w + 1, c :: cs =>
    if c.isDigit then readDigits (acc * 10 + (c.toNat - 48)) w cs else none

/-- Consume one expected literal character. -/
def expectChar (c : Char) : List Char → Option (List Char)
  | [] => none
  | x :: xs => if x = c then some xs else none

/-- The anchored regex
`^(\d{4}-\d{2}-\d{2}T\d{2}:\d{2}:\d{2}\.\d{3}Z)` used by both
`parseTimestampFromFilename` copies (transcription.ts and audio-mixer.ts):
every atom is fixed-width, so the match is this deterministic sequential
scan.  On success it returns the seven numeric fields of the captured
prefix together with the unconsumed remainder of the input. -/
def parseTimestampCore (cs : List Char) : Option (DateMs × List Char) := do
  let (y, r) ← readDigits 0 4 cs
  let r ← expectChar '-' r
  let (mo, r) ← readDigits 0 2 r
  let r ← expectChar '-' r
  let (d, r) ← readDigits 0 2 r
  let r ← expectChar 'T' r
  let (h, r) ← readDigits 0 2 r
  let r ← expectChar ':' r
  let (mi, r) ← readDigits 0 2 r
  let r ← expectChar ':' r
  let (s, r) ← readDigits 0 2 r
  let r ← expectChar '.' r
  let (ms, r) ← readDigits 0 3 r
  let r ← expectChar 'Z' r
  pure (⟨y, mo, d, h, mi, s, ms⟩, r)

/-- Roll a date forward to the next midnight; used only for the ISO time
`24:00:00.000`, which JS engines accept as end-of-day. -/
def rollOverMidnight (f : DateMs) : DateMs :=
  if f.day < daysInMonth f.year f.month then ⟨f.year, f.month, f.day + 1, 0, 0, 0, 0⟩
  else if f.month < 12 then ⟨f.year, f.month + 1, 1, 0, 0, 0, 0⟩
  else ⟨f.year + 1, 1, 1, 0, 0, 0, 0⟩

/-- `new Date(str)` applied to a string of the exact shape the regex above
captured: the ECMA-262 Date Time String Format validates the calendar
fields (month 1-12, day within the month, time fields in range, with
`24:00:00.000` allowed as end-of-day); out-of-range fields yield an
*Invalid Date*, modelled as `none`. -/
def jsDateOfFields (f : DateMs) : Option DateMs :=
  if 1 ≤ f.month ∧ f.month ≤ 12 ∧ 1 ≤ f.day ∧ f.day ≤ daysInMonth f.year f.month then
    if f.hour ≤ 23 ∧ f.minute ≤ 59 ∧ f.second ≤ 59 then some f
    else if f.hour = 24 ∧ f.minute = 0 ∧ f.second = 0 ∧ f.millis = 0 then
      some (rollOverMidnight f)
    else none
  else none

/-- `parseTimestampFromFilename` (src/src/utils/transcription.ts lines
168-177, duplicated in src/src/utils/audio-mixer.ts lines 120-129): if the
anchored regex does not match, throw
`Could not parse timestamp from filename: <input>`; otherwise return
`new Date(match[1])` — which is an Invalid Date (`Except.ok none`), not an
error, when the matched prefix is not a real calendar date. -/
def parseTimestampFromFilename (filename : String) : Except String (Option DateMs) :=
  match parseTimestampCore filename.data with
  | none => Except.error ("Could not parse timestamp from filename: " ++ filename)
  | some (f, _) => Except.ok (jsDateOfFields f)

/-- `extractUsernameFromFilename` (src/src/utils/transcription.ts lines
179-188): the regex `^\d{4}-\d{2}-\d{2}T\d{2}:\d{2}:\d{2}\.\d{3}Z_(.+)\.ogg$`
captures everything between the timestamp's underscore and the final
`.ogg`; the capture must be nonempty and (since `.` does not match a
newline) newline-free.  On no match the fallback label is returned. -/
def extractUsernameFromFilename (filename : String) : String :=
  match parseTimestampCore filename.data with
  | some (_, '_' :: rest) =>
    if 1 ≤ rest.length - 4 ∧ rest.drop (rest.length - 4) = ['.', 'o', 'g', 'g'] ∧
        ¬ '\n' ∈ rest.take (rest.length - 4) then
      String.mk (rest.take (rest.length - 4))
    else "Unknown_Speaker"
  | _ => "Unknown_Speaker"

/-! ## Transcript Assembler (src/src/utils/transcription.ts) -/

/-- `TRANSCRIPTION.MAX_NO_SPEECH_PROB` from src/src/config/constants.ts. -/
def MAX_NO_SPEECH_PROB : ℚ := 3 / 10

/-- One segment of the transcription capability's `verbose_json` response
(the fields the assembler reads).  `endSec` embeds the JSON field `end`,
which is a Lean keyword. -/
structure RawSegment where
  start : ℚ
  endSec : ℚ
  text : String
  avg_logprob : ℚ
  no_speech_prob : ℚ
deriving DecidableEq, Repr

/-- `TranscriptionSegment` from src/src/utils/transcription.ts.  Start and
end times are `Option ℚ` because they are computed from file-timestamp
arithmetic that yields NaN (`none`) when a filename's regex-matching
timestamp is not a real calendar date. -/
structure TranscriptionSegment where
  speaker : String
  text : String
  startTime : Option ℚ
  endTime : Option ℚ
  confidence : ℚ
  noSpeechProb : ℚ
deriving DecidableEq, Repr

/-- NaN-propagating subtraction on JS numbers. -/
def jsSub : Option ℚ → Option ℚ → Option ℚ
  | some x, some y => some (x - y)
  | _, _ => none

/-- NaN-propagating addition on JS numbers. -/
def jsAdd : Option ℚ → Option ℚ → Option ℚ
  | some x, some y => some (x + y)
  | _, _ => none

/-- NaN-propagating division by a nonzero literal. -/
def jsDivBy (q : ℚ) : Option ℚ → Option ℚ
  | some x => some (x / q)
  | none => none

/-- `date.getTime()` as a JS number: NaN for an Invalid Date. -/
def jsTime : Option DateMs → Option ℚ
  | some t => some ((t.getTime : ℚ))
  | none => none

/-- JS `<` on two `Date`s compares their time values; any comparison with
NaN is false. -/
def jsDateLt (a b : Option DateMs) : Bool :=
  match a, b with
  | some x, some y => decide (x.getTime < y.getTime)
  | _, _ => false

/-- The segment filter of transcribeSessionFolder (lines 60-62):
`no_speech_prob <= 0.3 && text.trim().length > 3 && end - start > 0.5`. -/
def keepSegment (r : RawSegment) : Bool :=
  decide (r.no_speech_prob ≤ MAX_NO_SPEECH_PROB) &&
    decide (3 < (jsTrim r.text).length) && decide (1 / 2 < r.endSec - r.start)

/-- The `TranscriptionSegment` pushed for one kept raw segment (lines
63-75): times rebased by `fileOffsetMs / 1000`, confidence obtained from
the average log-probability through the JS `Math.exp` (passed in as the
function `exp`, since the engine's transcendental float routine is
external to this embedding). -/
def absSegment (exp : ℚ → ℚ) (speaker : String) (offsetMs : Option ℚ)
    (r : RawSegment) : TranscriptionSegment :=
  { speaker := speaker
    text := jsTrim r.text
    startTime := jsAdd (jsDivBy 1000 offsetMs) (some r.start)
    endTime := jsAdd (jsDivBy 1000 offsetMs) (some r.endSec)
    confidence := exp r.avg_logprob
    noSpeechProb := r.no_speech_prob }

/-- The loop state of transcribeSessionFolder: `sessionStart` starts as
`null` (outer `none`); once set it holds a JS `Date` that may itself be an
Invalid Date (inner `none`).  `segments` is `allSegments`. -/
structure TState where
  sessionStart : Option (Option DateMs)
  segments : List TranscriptionSegment
deriving DecidableEq, Repr

/-- Lines 48-50: `if (!sessionStart || timestamp < sessionStart)
sessionStart = timestamp`.  `!sessionStart` is true only for `null` — an
Invalid Date object is truthy — and a `<` against an Invalid Date is
false, so an Invalid Date that lands in `sessionStart` sticks. -/
def updateSessionStart (ss : Option (Option DateMs)) (ts : Option DateMs) :
    Option (Option DateMs) :=
  match ss with
  | none => some ts
  | some s0 => if jsDateLt ts s0 then some ts else some s0

/-- Collapse the nullable session start to a date for `getTime` (only
read after it has been assigned, hence the `none` case is dead code in
every run of the loop body). -/
def flattenStart : Option (Option DateMs) → Option DateMs
  | none => none
  | some d => d

/-- One iteration of the per-file loop of transcribeSessionFolder (lines
40-86).  A parse throw or a transcription-capability throw is caught by
the surrounding try/catch and the loop continues; note that the
`sessionStart` update happens before the capability call, so a failing
clip still contributes its timestamp to the running minimum. -/
def stepFile (exp : ℚ → ℚ) (api : String → Except String (List RawSegment))
    (st : TState) (filename : String) : TState :=
  match parseTimestampFromFilename filename with
  | Except.error _ => st
  | Except.ok ts =>
    let speaker := extractUsernameFromFilename filename
    let ss := updateSessionStart st.sessionStart ts
    match api filename with
    | Except.error _ => { sessionStart := ss, segments := st.segments }
    | Except.ok raws =>
      let offsetMs := jsSub (jsTime ts) (jsTime (flattenStart ss))
      { sessionStart := ss
        segments := st.segments ++
          (raws.filter keepSegment).map (absSegment exp speaker offsetMs) }

/-- The whole per-file loop, folded over the enumerated clip files. -/
def transcribeFold (exp : ℚ → ℚ) (api : String → Except String (List RawSegment))
    (files : List String) : TState :=
  files.foldl (stepFile exp api) { sessionStart := none, segments := [] }

/-- Clip-file enumeration shared by transcribeSessionFolder and
mixSessionFolder: keep `.ogg` entries, drop prior `mixed_` output. -/
def oggFiles (listing : List String) : List String :=
  (listing.filter fun f => jsEndsWith f (".ogg")).filter fun f =>
    !(jsStartsWith f ("mixed_"))

/-- The body of the merge loop of `mergeConsecutiveSegments` (lines
196-214), with `current` made explicit: a same-speaker neighbour is folded
into `current` (text joined by one space, end time replaced, confidence
and no-speech probability re-averaged pairwise); a different speaker
flushes `current`. -/
def mergeLoop (current : TranscriptionSegment) :
    List TranscriptionSegment → List TranscriptionSegment
  | [] => [current]
  | next :: rest =>
    if current.speaker = next.speaker then
      mergeLoop
        { current with
          text := current.text ++ " " ++ next.text
          endTime := next.endTime
          confidence := (current.confidence + next.confidence) / 2
          noSpeechProb := (current.noSpeechProb + next.noSpeechProb) / 2 } rest
    else current :: mergeLoop next rest

/-- `mergeConsecutiveSegments` from src/src/utils/transcription.ts lines
190-217. -/
def mergeConsecutiveSegments : List TranscriptionSegment → List TranscriptionSegment
  | [] => []
  | s :: rest => mergeLoop s rest

/-- Line 93: `allSegments.sort((a, b) => a.startTime - b.startTime)` — a
stable sort on start time; a NaN comparator value is treated as 0
(equal) by the ECMA-262 sort semantics. -/
def sortByStart (l : List TranscriptionSegment) : List TranscriptionSegment :=
  stableSort (fun a b =>
    match a.startTime, b.startTime with
    | some x, some y => decide (x ≤ y)
    | _, _ => true) l

/-- `transcribeSessionFolder` (src/src/utils/transcription.ts lines
22-128) up to the transcript write: enumerate clips, throw on an empty
set, run the per-file loop, throw if nothing survived, otherwise sort,
merge and write the transcript built from the merged segments.  An
`Except.error` is raised before `transcript.md` is written, so an error
result means no transcript artifact is created.  (The markdown rendering
and the non-fatal summary step that follow the write are not modelled.) -/
def transcribeSessionFolder (exp : ℚ → ℚ)
    (api : String → Except String (List RawSegment))
    (listing : List String) : Except String (List TranscriptionSegment) :=
  let files := oggFiles listing
  if files.isEmpty then Except.error ("No OGG files found to transcribe")
  else
    let st := transcribeFold exp api files
    if st.segments.isEmpty then
      Except.error ("No transcribable segments found in any audio files")
    else Except.ok (mergeConsecutiveSegments (sortByStart st.segments))

/-! ## Timeline Mixer (src/src/utils/audio-mixer.ts) -/

deriving instance DecidableEq for Except

/-- What a file left in the session folder by a mixing run holds. -/
inductive FileContents
  | copyOf (src : String)
  | encodedMix (clips : List String)
  | truncatedOutput
deriving DecidableEq, Repr

/-- Outcome of the external FFmpeg encode of the multi-clip path.  Whether
a failed encode leaves a truncated file at its configured output path is
the encoder's behaviour, not the caller's, so it is a parameter
(`leavesTruncated`); FFmpeg opens and writes the output as it runs, so both
behaviours are realizable. -/
inductive EncodeOutcome
  | success
  | failure (msg : String) (leavesTruncated : Bool)
deriving DecidableEq, Repr

/-- `ClipTimelineData` from src/src/utils/audio-mixer.ts. -/
structure ClipTimelineData where
  filename : String
  timestamp : Option DateMs
  offsetMs : Option ℚ
deriving DecidableEq, Repr

/-- The result of one mixing run: the settled promise and the files the
run created (or left behind) in the session folder. -/
structure MixRun where
  result : Except String String
  written : List (String × FileContents)
deriving DecidableEq, Repr

/-- Line 41: `.sort((a, b) => a.timestamp.getTime() - b.timestamp.getTime())`;
stable, NaN comparator values treated as equal. -/
def sortClips (l : List ClipTimelineData) : List ClipTimelineData :=
  stableSort (fun a b =>
    match jsTime a.timestamp, jsTime b.timestamp with
    | some x, some y => decide (x ≤ y)
    | _, _ => true) l

/-- Lines 33-41: `files.map` building one `ClipTimelineData` per file;
`parseTimestampFromFilename` throws inside the callback, so the first
undecodable filename aborts the whole mix with its parse error (offsets
are initialized to 0 and recomputed after sorting). -/
def parseClips : List String → Except String (List ClipTimelineData)
  | [] => Except.ok []
  | f :: fs =>
    match parseTimestampFromFilename f with
    | Except.error e => Except.error e
    | Except.ok ts =>
      match parseClips fs with
      | Except.error e => Except.error e
      | Except.ok rest =>
        Except.ok ({ filename := f, timestamp := ts, offsetMs := some 0 } :: rest)

/-- `mixSessionFolder` (src/src/utils/audio-mixer.ts lines 12-118):
enumerate clips; throw on an empty set; copy a single clip verbatim to
`mixed_timeline.ogg`; otherwise parse every filename's timestamp (an
unparsable name throws and rejects the whole mix before anything is
written), sort, compute offsets, and run FFmpeg writing directly to
`mixed_timeline.ogg`.  On encoder success the promise resolves with the
output path; on encoder failure it rejects with
`Audio mixing failed: <message>` and performs no cleanup, so whatever the
encoder left at the output path remains.  (The adelay/amix filter-graph
construction is not modelled; the encode is the `enc` parameter.) -/
def mixSessionFolder (enc : EncodeOutcome) (listing : List String) : MixRun :=
  match oggFiles listing with
  | [] => { result := Except.error ("No OGG files found to mix"), written := [] }
  | [single] =>
    { result := Except.ok ("mixed_timeline.ogg")
      written := [("mixed_timeline.ogg", FileContents.copyOf single)] }
  | files =>
    match parseClips files with
    | Except.error e => { result := Except.error e, written := [] }
    | Except.ok parsed =>
      let sorted := sortClips parsed
      let sessionStart : Option DateMs :=
        match sorted with
        | [] => none
        | c :: _ => c.timestamp
      let clips := sorted.map fun c =>
        { c with offsetMs := jsSub (jsTime c.timestamp) (jsTime sessionStart) }
      match enc with
      | EncodeOutcome.success =>
        { result := Except.ok ("mixed_timeline.ogg")
          written := [("mixed_timeline.ogg",
            FileContents.encodedMix (clips.map fun c => c.filename))] }
      | EncodeOutcome.failure msg leavesTruncated =>
        { result := Except.error ("Audio mixing failed: " ++ msg)
          written :=
            if leavesTruncated then [("mixed_timeline.ogg", FileContents.truncatedOutput)]
            else [] }

/-! ## Session Capture Controller (src/src/utils/recording.ts)

All four handlers `setupVoiceReceiver` registers against the per-speaker
state map `userRecordingStates` are embedded as a transition system: the
speaking-start handler (lines 72-89), the clip pipeline-completion
callback installed by `createListeningStream` (lines 121-174), the
`voiceStateUpdate` listener that marks a speaker idle when they leave the
recorded channel (lines 102-111), and the connection `stateChange`
handler that clears the whole map on disconnected/destroyed (lines
92-99).  The map is a total function defaulting to idle
(`.get(userId) || RecordingState.IDLE`); each call to
`createListeningStream` allocates one fresh Clip Capture Unit (one audio
subscription plus one output file), and the unit's `pipeline` callback
returns the speaker to idle when the stream ends.  The user fetch that
sits between the state flip to recording and the unit creation is
modelled atomically with the transition: a failed fetch restores idle and
creates no unit.  Neither the leave handler nor the connection clear
touches the live units themselves — a subscription keeps draining until
its own silence timeout — so both can reset a flag to idle while the
speaker's clip stream is still live. -/

/-- `RecordingState` from src/src/types/recording.ts (the `stopping`
variant is never assigned by the controller). -/
inductive RecState
  | idle
  | recording
deriving DecidableEq, Repr

/-- A capture-controller state: the per-speaker flag map, the currently
live Clip Capture Units tagged with a fresh id, and the id supply. -/
structure CaptureState where
  recState : String → RecState
  activeUnits : List (String × Nat)
  nextUnit : Nat

/-- Controller events: a speaking-start signal for a speaker (with the
outcome of the user fetch), the end of a speaker's live clip stream, a
`voiceStateUpdate` in which that speaker leaves the recorded channel, and
a connection transition to disconnected/destroyed. -/
inductive CaptureEvent
  | speakStart (userId : String) (fetchOk : Bool)
  | streamEnd (userId : String)
  | userLeave (userId : String)
  | disconnect

/-- The initial state of `setupVoiceReceiver`: an empty map, no units. -/
def captureInit : CaptureState :=
  { recState := fun _ => RecState.idle, activeUnits := [], nextUnit := 0 }

/-- The controller transition.  A speaking-start for a speaker whose flag
is not idle falls through the `if (currentState === RecordingState.IDLE)`
guard and does nothing.  A stream end runs the pipeline callback of the
speaker's unit: the unit is gone and the flag returns to idle.  A leave
event sets the speaker's flag to idle (the source guards on
`userRecordingStates.has(userId)`, but setting an absent — hence
idle-by-default — key to idle is the same total function) while the
speaker's still-draining unit stays live.  A disconnect clears the map
(`userRecordingStates.clear()`), leaving every live unit running. -/
def captureStep (st : CaptureState) : CaptureEvent → CaptureState
  | CaptureEvent.speakStart u fetchOk =>
    if st.recState u = RecState.idle then
      if fetchOk then
        { recState := fun v => if v = u then RecState.recording else st.recState v
          activeUnits := st.activeUnits ++ [(u, st.nextUnit)]
          nextUnit := st.nextUnit + 1 }
      else st
    else st
  | CaptureEvent.streamEnd u =>
    if (st.activeUnits.filter fun p => p.1 = u).isEmpty then st
    else
      { recState := fun v => if v = u then RecState.idle else st.recState v
        activeUnits := st.activeUnits.eraseP fun p => p.1 = u
        nextUnit := st.nextUnit }
  | CaptureEvent.userLeave u =>
    { recState := fun v => if v = u then RecState.idle else st.recState v
      activeUnits := st.activeUnits
      nextUnit := st.nextUnit }
  | CaptureEvent.disconnect =>
    { recState := fun _ => RecState.idle
      activeUnits := st.activeUnits
      nextUnit := st.nextUnit }

/-- States reachable from the fresh receiver by any event sequence. -/
def ReachableCapture : CaptureState → Prop :=
  Relation.ReflTransGen (fun s t => ∃ e, captureStep s e = t) captureInit

/-- Events of the speaking-signal/stream path alone — the leave handler
and the connection clear are excluded. -/
def SpeakingOnly : CaptureEvent → Prop
  | CaptureEvent.speakStart _ _ => True
  | CaptureEvent.streamEnd _ => True
  | CaptureEvent.userLeave _ => False
  | CaptureEvent.disconnect => False

/-- States reachable from the fresh receiver by speaking-start and
stream-end events only. -/
def ReachableSpeakingOnly : CaptureState → Prop :=
  Relation.ReflTransGen (fun s t => ∃ e, SpeakingOnly e ∧ captureStep s e = t) captureInit

/-- Number of live Clip Capture Units owned by speaker `u`. -/
def unitCount (st : CaptureState) (u : String) : Nat :=
  (st.activeUnits.filter fun p => p.1 = u).length

/-! ## Lemmas: fixed-width decimal round trip -/

theorem daysInMonth_le_31 (y m : Nat) : daysInMonth y m ≤ 31 := by
  unfold daysInMonth
  split
  · split <;> omega
  · split <;> omega

theorem digitChar_isDigit (d : Nat) (h : d < 10) : (digitChar d).isDigit = true := by
  interval_cases d <;> decide

theorem digitChar_toNat (d : Nat) (h : d < 10) : (digitChar d).toNat = 48 + d := by
  interval_cases d <;> decide

theorem readDigits_padNum (w : Nat) : ∀ (acc k : Nat) (rest : List Char),
    readDigits acc w (padNum w k ++ rest) = some (acc * 10 ^ w + k % 10 ^ w, rest) := by
  induction w with
  | zero => intro acc k rest; simp [readDigits, padNum, Nat.mod_one]
  | succ w ih =>
    intro acc k rest
    have hd : k / 10 ^ w % 10 < 10 := Nat.mod_lt _ (by norm_num)
    have harith : (acc * 10 + k / 10 ^ w % 10) * 10 ^ w + k % 10 ^ w
        = acc * 10 ^ (w + 1) + k % 10 ^ (w + 1) := by
      rw [pow_succ, Nat.mod_mul]
      ring
    simp only [padNum, List.cons_append, readDigits, digitChar_isDigit _ hd,
      digitChar_toNat _ hd, if_true, List.append_eq]
    rw [Nat.add_sub_cancel_left, ih, harith]

theorem expectChar_cons (c : Char) (rest : List Char) :
    expectChar c (c :: rest) = some rest := by
  simp [expectChar]

theorem parseTimestampCore_iso (t : DateMs) (h : t.ValidUTC) (rest : List Char) :
    parseTimestampCore (isoChars t ++ rest) = some (t, rest) := by
  obtain ⟨h1, h2, h3, h4, h5, h6, h7, h8, h9⟩ := h
  have h31 := daysInMonth_le_31 t.year t.month
  simp only [isoChars, List.append_assoc, List.cons_append, List.nil_append]
  simp only [parseTimestampCore, readDigits_padNum, expectChar_cons, Option.bind_eq_bind,
    Option.some_bind, zero_mul, zero_add, pure]
  rw [Nat.mod_eq_of_lt (by omega), Nat.mod_eq_of_lt (by omega),
    Nat.mod_eq_of_lt (by omega), Nat.mod_eq_of_lt (by omega),
    Nat.mod_eq_of_lt (by omega), Nat.mod_eq_of_lt (by omega),
    Nat.mod_eq_of_lt (by omega)]

theorem jsDateOfFields_valid (t : DateMs) (h : t.ValidUTC) : jsDateOfFields t = some t := by
  obtain ⟨h1, h2, h3, h4, h5, h6, h7, h8, h9⟩ := h
  unfold jsDateOfFields
  rw [if_pos ⟨h2, h3, h4, h5⟩, if_pos ⟨h6, h7, h8⟩]

theorem string_data_append (a b : String) : (a ++ b).data = a.data ++ b.data := rfl

/-- Claim C3: for every valid UTC timestamp `t` with millisecond precision
(four-digit year) and every speaker label `s`, decoding the filename built
as `formatTimestamp(t, false) + "_" + sanitizeUsername(s) + ".ogg"` with
`parseTimestampFromFilename` reconstructs `t` exactly. -/
theorem claim3_timestamp_roundtrip (t : DateMs) (s : String) (h : t.ValidUTC) :
    parseTimestampFromFilename
        (formatTimestamp t false ++ "_" ++ sanitizeUsername s ++ ".ogg")
      = Except.ok (some t) := by
  have hdata : (formatTimestamp t false ++ "_" ++ sanitizeUsername s ++ ".ogg").data
      = isoChars t ++ ('_' :: ((sanitizeUsername s).data ++ ['.', 'o', 'g', 'g'])) := by
    simp [formatTimestamp, string_data_append, String.mk, List.append_assoc]
  rw [parseTimestampFromFilename, hdata, parseTimestampCore_iso t h]
  simp [jsDateOfFields_valid t h]

/-- Claim C3 witness: a concrete round trip through a filename with a
sanitized speaker label. -/
theorem claim3_timestamp_roundtrip_witness :
    (⟨2025, 7, 30, 0, 58, 7, 260⟩ : DateMs).ValidUTC ∧
      parseTimestampFromFilename
          (formatTimestamp ⟨2025, 7, 30, 0, 58, 7, 260⟩ false ++ "_" ++
            sanitizeUsername ("user name!") ++ ".ogg")
        = Except.ok (some ⟨2025, 7, 30, 0, 58, 7, 260⟩) :=
  ⟨by decide, claim3_timestamp_roundtrip ⟨2025, 7, 30, 0, 58, 7, 260⟩ ("user name!") (by decide)⟩

/-- Claim C5 (code evaluation): the four absent-or-malformed-prefix inputs
from the claim do throw the descriptive error naming the input, but a
regex-matching non-calendar date (month 13, or day 40) is returned as an
Invalid Date (`Except.ok none`) without any error — `parseTimestampFromFilename`
in src/src/utils/transcription.ts has no `isNaN` guard, unlike the copy
asserted against in the repository's own test suite. -/
theorem claim5_decode_failure_behavior :
    parseTimestampFromFilename ("")
        = Except.error ("Could not parse timestamp from filename: ")
      ∧ parseTimestampFromFilename ("2025-07-30T00:58:07_username.ogg")
        = Except.error ("Could not parse timestamp from filename: 2025-07-30T00:58:07_username.ogg")
      ∧ parseTimestampFromFilename ("2025-07-30T00:58:07.260_username.ogg")
        = Except.error ("Could not parse timestamp from filename: 2025-07-30T00:58:07.260_username.ogg")
      ∧ parseTimestampFromFilename ("30-07-2025T00:58:07.260Z_username.ogg")
        = Except.error ("Could not parse timestamp from filename: 30-07-2025T00:58:07.260Z_username.ogg")
      ∧ parseTimestampFromFilename ("2025-13-01T00:00:00.000Z_user.ogg") = Except.ok none
      ∧ parseTimestampFromFilename ("2025-01-40T00:00:00.000Z_user.ogg") = Except.ok none := by
  refine ⟨by decide, by decide, by decide, by decide, by decide, by decide⟩

/-! ## Lemmas: merging consecutive same-speaker segments -/

theorem mergeLoop_same_speaker (rest : List TranscriptionSegment) :
    ∀ cur : TranscriptionSegment, (∀ r ∈ rest, r.speaker = cur.speaker) →
      ∃ m, mergeLoop cur rest = [m] ∧ m.speaker = cur.speaker ∧
        m.confidence = rest.foldl (fun a r => (a + r.confidence) / 2) cur.confidence ∧
        m.noSpeechProb = rest.foldl (fun a r => (a + r.noSpeechProb) / 2) cur.noSpeechProb := by
  induction rest with
  | nil => intro cur h; exact ⟨cur, rfl, rfl, rfl, rfl⟩
  | cons r rs ih =>
    intro cur h
    have hr : cur.speaker = r.speaker := (h r (by simp)).symm
    have hrs : ∀ x ∈ rs, x.speaker =
        ({ cur with
            text := cur.text ++ " " ++ r.text
            endTime := r.endTime
            confidence := (cur.confidence + r.confidence) / 2
            noSpeechProb := (cur.noSpeechProb + r.noSpeechProb) / 2 } :
          TranscriptionSegment).speaker :=
      fun x hx => h x (List.mem_cons_of_mem _ hx)
    obtain ⟨m, hm, hsp, hc, hn⟩ := ih _ hrs
    refine ⟨m, ?_, hsp, ?_, ?_⟩
    · rw [mergeLoop, if_pos hr, hm]
    · rw [hc]; rfl
    · rw [hn]; rfl

/-- Number of maximal runs of equal labels in the label sequence
`sp :: rest`. -/
def runsFrom (sp : String) : List String → Nat
  | [] => 1
  | x :: xs => if sp = x then runsFrom sp xs else 1 + runsFrom x xs

theorem mergeLoop_length (rest : List TranscriptionSegment) :
    ∀ cur : TranscriptionSegment,
      (mergeLoop cur rest).length = runsFrom cur.speaker (rest.map fun r => r.speaker) := by
  induction rest with
  | nil => intro cur; rfl
  | cons r rs ih =>
    intro cur
    by_cases hsp : cur.speaker = r.speaker
    · rw [mergeLoop, if_pos hsp, ih]
      simp [runsFrom, hsp]
    · rw [mergeLoop, if_neg hsp]
      simp [runsFrom, hsp, ih r, Nat.add_comm]

/-- Claim C4: merging a run of consecutive same-speaker segments yields a
single segment whose confidence and no-speech probability are the
sequential pairwise averages, in order, of the members' values; on the
confidence run [0.9, 0.8, 0.7, 0.95] (with no-speech probabilities
[0.1, 0.2, 0.3, 0.05]) this gives exactly 0.8625 = 69/80 (and 0.1375 =
11/80), not the flat mean 0.8375 = 67/80. -/
theorem claim4_pairwise_confidence_averaging (s0 : TranscriptionSegment)
    (rest : List TranscriptionSegment) (hsp : ∀ r ∈ rest, r.speaker = s0.speaker) :
    (∃ m, mergeConsecutiveSegments (s0 :: rest) = [m] ∧
        m.confidence = rest.foldl (fun a r => (a + r.confidence) / 2) s0.confidence ∧
        m.noSpeechProb = rest.foldl (fun a r => (a + r.noSpeechProb) / 2) s0.noSpeechProb) ∧
      (mergeConsecutiveSegments
          [⟨"Alice", "w", some 0, some 1, 9/10, 1/10⟩,
           ⟨"Alice", "x", some 1, some 2, 8/10, 2/10⟩,
           ⟨"Alice", "y", some 2, some 3, 7/10, 3/10⟩,
           ⟨"Alice", "z", some 3, some 4, 19/20, 1/20⟩]).map
          (fun m => (m.confidence, m.noSpeechProb))
        = [(69/80, 11/80)] ∧
      (69 / 80 : ℚ) = ((((9/10 + 8/10) / 2 + 7/10) / 2 + 19/20) / 2 : ℚ) ∧
      ((9/10 + 8/10 + 7/10 + 19/20) / 4 : ℚ) = 67/80 ∧
      (69 / 80 : ℚ) ≠ 67 / 80 := by
  refine ⟨?_, ?_, by norm_num, by norm_num, by norm_num⟩
  · obtain ⟨m, hm, hsp2, hc, hn⟩ := mergeLoop_same_speaker rest s0 hsp
    exact ⟨m, hm, hc, hn⟩
  · norm_num [mergeConsecutiveSegments, mergeLoop]

/-- Claim C4 witness: the general pairwise-averaging law applied to a
concrete three-segment same-speaker run. -/
theorem claim4_pairwise_confidence_averaging_witness :
    (∀ r ∈ [(⟨"Bob", "b", some 1, some 2, 1/2, 0⟩ : TranscriptionSegment),
        ⟨"Bob", "c", some 2, some 3, 1/4, 0⟩],
        r.speaker = (⟨"Bob", "a", some 0, some 1, 1, 0⟩ : TranscriptionSegment).speaker) ∧
      (∃ m, mergeConsecutiveSegments
            [(⟨"Bob", "a", some 0, some 1, 1, 0⟩ : TranscriptionSegment),
             ⟨"Bob", "b", some 1, some 2, 1/2, 0⟩, ⟨"Bob", "c", some 2, some 3, 1/4, 0⟩]
          = [m] ∧
        m.confidence =
          [(⟨"Bob", "b", some 1, some 2, 1/2, 0⟩ : TranscriptionSegment),
            ⟨"Bob", "c", some 2, some 3, 1/4, 0⟩].foldl
            (fun a r => (a + r.confidence) / 2) 1 ∧
        m.noSpeechProb =
          [(⟨"Bob", "b", some 1, some 2, 1/2, 0⟩ : TranscriptionSegment),
            ⟨"Bob", "c", some 2, some 3, 1/4, 0⟩].foldl
            (fun a r => (a + r.noSpeechProb) / 2) 0) :=
  ⟨by simp, (claim4_pairwise_confidence_averaging _ _ (by simp)).1⟩

/-- Claim C6: `mergeConsecutiveSegments` emits exactly one segment per
maximal run of consecutive equal-speaker segments; alternating speakers
A,B,A,B stay 4 segments, and A,A,B,A collapses to 3 (the returning
speaker starts a fresh group). -/
theorem claim6_one_output_per_speaker_run :
    (∀ (s : TranscriptionSegment) (rest : List TranscriptionSegment),
        (mergeConsecutiveSegments (s :: rest)).length
          = runsFrom s.speaker (rest.map fun r => r.speaker)) ∧
      (mergeConsecutiveSegments
          [⟨"A", "1", some 0, some 1, 0, 0⟩, ⟨"B", "2", some 1, some 2, 0, 0⟩,
           ⟨"A", "3", some 2, some 3, 0, 0⟩, ⟨"B", "4", some 3, some 4, 0, 0⟩]).length = 4 ∧
      (mergeConsecutiveSegments
          [⟨"A", "1", some 0, some 1, 0, 0⟩, ⟨"A", "2", some 1, some 2, 0, 0⟩,
           ⟨"B", "3", some 2, some 3, 0, 0⟩, ⟨"A", "4", some 3, some 4, 0, 0⟩]).length = 3 := by
  refine ⟨?_, ?_, ?_⟩
  · intro s rest
    exact mergeLoop_length rest s
  · simp [mergeConsecutiveSegments, mergeLoop]
  · simp [mergeConsecutiveSegments, mergeLoop]

/-! ## Lemmas: capture controller invariant -/

/-- The controller invariant: every speaker owns at most one live unit,
and an idle speaker owns none. -/
def CaptureInv (st : CaptureState) : Prop :=
  ∀ u, unitCount st u ≤ 1 ∧ (st.recState u = RecState.idle → unitCount st u = 0)

theorem captureInv_init : CaptureInv captureInit := by
  intro u
  constructor <;> simp [captureInit, unitCount]

theorem filter_eraseP_disjoint {α} (p q : α → Bool) (l : List α)
    (hpq : ∀ x, p x = true → q x = false) :
    (l.eraseP p).filter q = l.filter q := by
  induction l with
  | nil => rfl
  | cons x xs ih =>
    by_cases hx : p x
    · simp [List.eraseP_cons, hx, List.filter_cons, hpq x hx]
    · simp only [List.eraseP_cons, hx, cond_false, List.filter_cons]
      cases hq : q x <;> simp [hq, ih]

theorem filter_eraseP_self_nil {α} (p : α → Bool) (l : List α)
    (h : (l.filter p).length ≤ 1) : ((l.eraseP p).filter p).length = 0 := by
  induction l with
  | nil => simp [List.eraseP]
  | cons x xs ih =>
    cases hx : p x with
    | true =>
      have h2 : xs.filter p = [] := by
        rw [List.filter_cons, if_pos hx, List.length_cons] at h
        exact List.length_eq_zero.mp (by omega)
      simp [List.eraseP_cons, hx, h2]
    | false =>
      have h2 : (xs.filter p).length ≤ 1 := by
        rw [List.filter_cons, if_neg (by simp [hx])] at h
        exact h
      simp [List.eraseP_cons, hx, List.filter_cons, ih h2]

theorem unitCount_append_single (l : List (String × Nat)) (u v : String) (n : Nat) :
    ((l ++ [(u, n)]).filter fun p => p.1 = v).length
      = (l.filter fun p => p.1 = v).length + (if u = v then 1 else 0) := by
  rw [List.filter_append]
  by_cases huv : u = v <;> simp [huv]

theorem captureStep_speakStart_idle_ok (st : CaptureState) (u : String)
    (hidle : st.recState u = RecState.idle) :
    captureStep st (CaptureEvent.speakStart u true) =
      { recState := fun v => if v = u then RecState.recording else st.recState v
        activeUnits := st.activeUnits ++ [(u, st.nextUnit)]
        nextUnit := st.nextUnit + 1 } := by
  simp [captureStep, hidle]

theorem captureStep_streamEnd_live (st : CaptureState) (u : String)
    (he : ¬(st.activeUnits.filter fun p => p.1 = u).isEmpty = true) :
    captureStep st (CaptureEvent.streamEnd u) =
      { recState := fun v => if v = u then RecState.idle else st.recState v
        activeUnits := st.activeUnits.eraseP fun p => p.1 = u
        nextUnit := st.nextUnit } := by
  simp [captureStep, he]

theorem captureInv_step (st : CaptureState) (e : CaptureEvent) (he : SpeakingOnly e)
    (h : CaptureInv st) : CaptureInv (captureStep st e) := by
  cases e with
  | userLeave u => exact he.elim
  | disconnect => exact he.elim
  | speakStart u fOk =>
    by_cases hidle : st.recState u = RecState.idle
    · cases fOk with
      | false => simpa [captureStep, hidle] using h
      | true =>
        rw [captureStep_speakStart_idle_ok st u hidle]
        intro v
        have hcu : unitCount st u = 0 := (h u).2 hidle
        by_cases hv : v = u
        · subst hv
          constructor
          · show ((st.activeUnits ++ [(v, st.nextUnit)]).filter fun p => p.1 = v).length ≤ 1
            rw [unitCount_append_single, if_pos rfl]
            have : unitCount st v = 0 := hcu
            unfold unitCount at this
            omega
          · intro habs
            simp at habs
        · constructor
          · show ((st.activeUnits ++ [(u, st.nextUnit)]).filter fun p => p.1 = v).length ≤ 1
            rw [unitCount_append_single, if_neg (fun hh => hv hh.symm)]
            have := (h v).1
            unfold unitCount at this
            omega
          · intro hvidle
            simp only [if_neg hv] at hvidle
            show ((st.activeUnits ++ [(u, st.nextUnit)]).filter fun p => p.1 = v).length = 0
            rw [unitCount_append_single, if_neg (fun hh => hv hh.symm)]
            have := (h v).2 hvidle
            unfold unitCount at this
            omega
    · simpa [captureStep, hidle] using h
  | streamEnd u =>
    by_cases hempty : (st.activeUnits.filter fun p => p.1 = u).isEmpty = true
    · simpa [captureStep, hempty] using h
    · rw [captureStep_streamEnd_live st u hempty]
      intro v
      by_cases hv : v = u
      · subst hv
        have hzero : ((st.activeUnits.eraseP fun p => p.1 = v).filter
            fun p => p.1 = v).length = 0 :=
          filter_eraseP_self_nil _ _ (h v).1
        constructor
        · show ((st.activeUnits.eraseP fun p => p.1 = v).filter fun p => p.1 = v).length ≤ 1
          omega
        · intro _
          exact hzero
      · have hsame : ((st.activeUnits.eraseP fun p => p.1 = u).filter
            fun p => p.1 = v) = st.activeUnits.filter fun p => p.1 = v := by
          refine filter_eraseP_disjoint _ _ _ ?_
          intro x hx
          have hxu : x.1 = u := by simpa using hx
          simp [hxu]
          exact fun hh => hv hh.symm
        constructor
        · show ((st.activeUnits.eraseP fun p => p.1 = u).filter fun p => p.1 = v).length ≤ 1
          rw [hsame]
          exact (h v).1
        · intro hvidle
          simp only [if_neg hv] at hvidle
          show ((st.activeUnits.eraseP fun p => p.1 = u).filter fun p => p.1 = v).length = 0
          rw [hsame]
          exact (h v).2 hvidle

theorem captureInv_reachable (st : CaptureState) (h : ReachableSpeakingOnly st) :
    CaptureInv st := by
  induction h with
  | refl => exact captureInv_init
  | tail _ hstep ih =>
    obtain ⟨e, he, hse⟩ := hstep
    exact hse ▸ captureInv_step _ e he ih

/-- Claim C2 counterexample: the controller state reached by the event
sequence speaking-start(alice), alice-leaves-channel,
speaking-start(alice) is reachable, and in it alice owns TWO live Clip
Capture Units at once: the leave handler (recording.ts lines 102-111)
resets her flag to idle while her first clip stream is still draining
toward its silence timeout, so the rejoin speaking-start passes the
`IDLE` guard and subscribes a second simultaneous unit — refuting "at
every instant each speaker has at most one active capture unit". -/
theorem claim2_counterexample :
    ReachableCapture
        (captureStep (captureStep (captureStep captureInit
            (CaptureEvent.speakStart ("alice") true))
            (CaptureEvent.userLeave ("alice")))
          (CaptureEvent.speakStart ("alice") true)) ∧
      unitCount
          (captureStep (captureStep (captureStep captureInit
              (CaptureEvent.speakStart ("alice") true))
              (CaptureEvent.userLeave ("alice")))
            (CaptureEvent.speakStart ("alice") true)) ("alice") = 2 := by
  constructor
  · exact Relation.ReflTransGen.tail
      (Relation.ReflTransGen.tail
        (Relation.ReflTransGen.single ⟨CaptureEvent.speakStart ("alice") true, rfl⟩)
        ⟨CaptureEvent.userLeave ("alice"), rfl⟩)
      ⟨CaptureEvent.speakStart ("alice") true, rfl⟩
  · decide

/-- Claim C2 (amended): a speaking-start signal for a speaker whose
per-speaker state is already recording is a no-op in EVERY controller
state — overlapping speaking-start signals alone never create a second
Clip Capture Unit — and along event sequences made of speaking-start and
stream-end events only, every speaker owns at most one live unit at
every instant.  The unqualified invariant fails once the leave or
disconnect handlers run (they reset flags to idle while clip streams are
still draining); see the counterexample. -/
theorem claim2_second_speaking_start_noop (st : CaptureState)
    (h : ReachableSpeakingOnly st) :
    (∀ (s : CaptureState) (u : String) (fetchOk : Bool),
        s.recState u = RecState.recording →
          captureStep s (CaptureEvent.speakStart u fetchOk) = s) ∧
      ∀ u, unitCount st u ≤ 1 := by
  constructor
  · intro s u fOk hrec
    simp [captureStep, hrec]
  · intro u
    exact (captureInv_reachable st h u).1

/-- Claim C2 witness: the no-op and single-unit facts at the concrete
state reached (by speaking events only) after one speaker starts
speaking once. -/
theorem claim2_second_speaking_start_noop_witness :
    ReachableSpeakingOnly (captureStep captureInit (CaptureEvent.speakStart ("bob") true)) ∧
      ((∀ (s : CaptureState) (u : String) (fetchOk : Bool),
          s.recState u = RecState.recording →
            captureStep s (CaptureEvent.speakStart u fetchOk) = s) ∧
        ∀ u, unitCount (captureStep captureInit (CaptureEvent.speakStart ("bob") true)) u ≤ 1) :=
  have hr : ReachableSpeakingOnly
      (captureStep captureInit (CaptureEvent.speakStart ("bob") true)) :=
    Relation.ReflTransGen.single ⟨CaptureEvent.speakStart ("bob") true, trivial, rfl⟩
  ⟨hr, claim2_second_speaking_start_noop _ hr⟩

/-! ## Lemmas: session-absolute rebasing in transcribeSessionFolder -/

/-- The clip start time a filename decodes to, when it decodes to a real
calendar date. -/
def parsedTime (f : String) : Option DateMs :=
  match parseTimestampFromFilename f with
  | Except.ok (some d) => some d
  | _ => none

/-- Epoch milliseconds of a clip filename's start time (junk value 0 for
filenames without a decodable start time). -/
def timeMsOf (f : String) : Int :=
  match parsedTime f with
  | some d => d.getTime
  | none => 0

/-- The segments one clip file contributes to `allSegments` when rebased
against a session start of `sessionStartMs` epoch milliseconds: its kept
raw segments, shifted by the clip's offset in seconds.  A clip whose
filename does not decode or whose transcription fails contributes
nothing. -/
def clipContribution (exp : ℚ → ℚ) (api : String → Except String (List RawSegment))
    (sessionStartMs : Int) (f : String) : List TranscriptionSegment :=
  match parsedTime f, api f with
  | some d, Except.ok raws =>
    (raws.filter keepSegment).map
      (absSegment exp (extractUsernameFromFilename f)
        (some ((d.getTime - sessionStartMs : Int) : ℚ)))
  | _, _ => []

/-- The minimum clip start time (epoch ms) over all files of a folder. -/
def minTimeMs : List String → Int
  | [] => 0
  | f :: fs => (fs.map timeMsOf).foldl min (timeMsOf f)

theorem parsedTime_eq_some {f : String} {d : DateMs} (h : parsedTime f = some d) :
    parseTimestampFromFilename f = Except.ok (some d) := by
  unfold parsedTime at h
  rcases hp : parseTimestampFromFilename f with e | od
  · rw [hp] at h; cases h
  · rw [hp] at h
    cases od with
    | none => cases h
    | some d2 => cases h; rfl

theorem timeMsOf_eq {f : String} {d : DateMs} (h : parsedTime f = some d) :
    timeMsOf f = d.getTime := by
  unfold timeMsOf
  rw [h]

/-- One loop iteration, for a file whose timestamp decodes and is no
earlier than the running minimum `m` already in `sessionStart`: the
minimum is kept and the file's contribution (relative to `m`) is
appended. -/
theorem stepFile_of_ge (exp : ℚ → ℚ) (api : String → Except String (List RawSegment))
    (st : TState) (f : String) (m d : DateMs)
    (hss : st.sessionStart = some (some m))
    (hd : parsedTime f = some d)
    (hge : m.getTime ≤ d.getTime) :
    stepFile exp api st f =
      { sessionStart := some (some m)
        segments := st.segments ++ clipContribution exp api m.getTime f } := by
  have hparse := parsedTime_eq_some hd
  have hlt : jsDateLt (some d) (some m) = false := by
    simp [jsDateLt]
    omega
  have hcast : jsSub (jsTime (some d)) (jsTime (some m))
      = some ((d.getTime - m.getTime : Int) : ℚ) := by
    simp [jsSub, jsTime]
  rcases hapi : api f with e | raws
  · simp [stepFile, hparse, hapi, updateSessionStart, hss, hlt, clipContribution, hd]
  · simp [stepFile, hparse, hapi, updateSessionStart, hss, hlt, flattenStart,
      clipContribution, hd, hcast]

theorem fold_keeps_min (exp : ℚ → ℚ) (api : String → Except String (List RawSegment))
    (m : DateMs) (files : List String) :
    ∀ st : TState, st.sessionStart = some (some m) →
      (∀ f ∈ files, ∃ d, parsedTime f = some d ∧ m.getTime ≤ d.getTime) →
      (files.foldl (stepFile exp api) st).segments
        = st.segments ++ files.flatMap (clipContribution exp api m.getTime) := by
  induction files with
  | nil => intro st _ _; simp
  | cons f fs ih =>
    intro st hss hall
    obtain ⟨d, hd, hge⟩ := hall f (by simp)
    rw [List.foldl_cons, stepFile_of_ge exp api st f m d hss hd hge]
    rw [ih _ rfl (fun g hg => hall g (by simp [hg]))]
    simp [List.append_assoc]

theorem foldl_min_eq (l : List Int) : ∀ x : Int, (∀ y ∈ l, x ≤ y) → l.foldl min x = x := by
  induction l with
  | nil => intro x _; rfl
  | cons y ys ih =>
    intro x h
    rw [List.foldl_cons, min_eq_left (h y (by simp))]
    exact ih x fun z hz => h z (by simp [hz])

/-- Claim C1 (amended): the loop rebases each clip's segments against the
*running* minimum of the clip start times enumerated so far, not against
the minimum over all clips.  When the enumeration is nondecreasing in
start time — as for an alphabetically sorted listing of these
ISO-prefixed filenames — the running minimum always equals the session
start (the minimum over ALL clip files), and every surviving segment's
absolute start/end is the owning clip's start minus that minimum (in
seconds) plus the segment's clip-relative start/end. -/
theorem claim1_rebase_sorted_enumeration (exp : ℚ → ℚ)
    (api : String → Except String (List RawSegment)) (files : List String)
    (hvalid : ∀ f ∈ files, (parsedTime f).isSome)
    (hsorted : files.Pairwise fun a b => timeMsOf a ≤ timeMsOf b) :
    (transcribeFold exp api files).segments
      = files.flatMap (clipContribution exp api (minTimeMs files)) := by
  cases files with
  | nil => simp [transcribeFold]
  | cons f0 fs =>
    obtain ⟨d0, hd0⟩ := Option.isSome_iff_exists.mp (hvalid f0 (by simp))
    have hge : ∀ f ∈ fs, timeMsOf f0 ≤ timeMsOf f :=
      (List.pairwise_cons.mp hsorted).1
    have hmin : minTimeMs (f0 :: fs) = timeMsOf f0 := by
      unfold minTimeMs
      refine foldl_min_eq _ _ ?_
      intro y hy
      obtain ⟨g, hg, rfl⟩ := List.mem_map.mp hy
      exact hge g hg
    have ht0 : timeMsOf f0 = d0.getTime := timeMsOf_eq hd0
    have hstep0 : stepFile exp api { sessionStart := none, segments := [] } f0 =
        { sessionStart := some (some d0)
          segments := [] ++ clipContribution exp api d0.getTime f0 } := by
      have hparse := parsedTime_eq_some hd0
      have hcast : jsSub (jsTime (some d0)) (jsTime (some d0))
          = some ((d0.getTime - d0.getTime : Int) : ℚ) := by
        simp [jsSub, jsTime]
      rcases hapi : api f0 with e | raws
      · simp [stepFile, hparse, hapi, updateSessionStart, clipContribution, hd0]
      · simp [stepFile, hparse, hapi, updateSessionStart, flattenStart,
          clipContribution, hd0, hcast]
    rw [transcribeFold, List.foldl_cons, hstep0]
    rw [fold_keeps_min exp api d0 fs _ rfl ?_]
    · rw [hmin, ht0]
      simp
    · intro g hg
      obtain ⟨dg, hdg⟩ := Option.isSome_iff_exists.mp (hvalid g (by simp [hg]))
      exact ⟨dg, hdg, by rw [← ht0, ← timeMsOf_eq hdg]; exact hge g hg⟩

/-! ## Concrete fixtures for witnesses and counterexamples -/

/-- A raw transcription segment that passes every filter condition. -/
def sampleRaw : RawSegment :=
  { start := 1, endSec := 2, text := "hello there", avg_logprob := 0, no_speech_prob := 0 }

/-- A transcription capability that returns `sampleRaw` for every clip. -/
def okApi : String → Except String (List RawSegment) := fun _ => Except.ok [sampleRaw]

def fileEarly : String := "1970-01-01T00:00:00.000Z_ann.ogg"

def fileLate : String := "1970-01-01T00:00:10.000Z_bob.ogg"

def dateEarly : DateMs := ⟨1970, 1, 1, 0, 0, 0, 0⟩

def dateLate : DateMs := ⟨1970, 1, 1, 0, 0, 10, 0⟩

theorem parse_fileEarly : parseTimestampFromFilename fileEarly = Except.ok (some dateEarly) := by
  decide

theorem parse_fileLate : parseTimestampFromFilename fileLate = Except.ok (some dateLate) := by
  decide

theorem parsedTime_fileEarly : parsedTime fileEarly = some dateEarly := by decide

theorem parsedTime_fileLate : parsedTime fileLate = some dateLate := by decide

theorem username_fileEarly : extractUsernameFromFilename fileEarly = "ann" := by decide

theorem username_fileLate : extractUsernameFromFilename fileLate = "bob" := by decide

theorem getTime_dateEarly : dateEarly.getTime = 0 := by decide

theorem getTime_dateLate : dateLate.getTime = 10000 := by decide

theorem timeMsOf_fileEarly : timeMsOf fileEarly = 0 := by decide

theorem timeMsOf_fileLate : timeMsOf fileLate = 10000 := by decide

theorem trim_sampleText : jsTrim ("hello there") = "hello there" := by decide

theorem keep_sampleRaw : keepSegment sampleRaw = true := by
  norm_num [keepSegment, sampleRaw, trim_sampleText, MAX_NO_SPEECH_PROB, String.length]

theorem keep_sampleRaw_lit :
    keepSegment
        { start := 1, endSec := 2, text := "hello there", avg_logprob := 0,
          no_speech_prob := 0 }
      = true :=
  keep_sampleRaw

/-- Claim C1 counterexample: with the clip files enumerated
later-timestamp first, the later clip's surviving segment is rebased
against the running minimum (its own start) rather than the session
minimum over ALL clips, so its absolute start is wrong: the loop yields
absolute start 1 s for the later clip, while the claimed formula (clip
start minus the minimum over all clip files, plus the clip-relative
start) demands 11 s. -/
theorem claim1_counterexample :
    (transcribeFold (fun q => q) okApi [fileLate, fileEarly]).segments
      ≠ [fileLate, fileEarly].flatMap
          (clipContribution (fun q => q) okApi (minTimeMs [fileLate, fileEarly])) := by
  have hL : (transcribeFold (fun q => q) okApi [fileLate, fileEarly]).segments
      = [{ speaker := "bob", text := "hello there", startTime := some 1, endTime := some 2,
            confidence := 0, noSpeechProb := 0 },
          { speaker := "ann", text := "hello there", startTime := some 1, endTime := some 2,
            confidence := 0, noSpeechProb := 0 }] := by
    norm_num [transcribeFold, stepFile, okApi, parse_fileEarly, parse_fileLate,
      username_fileEarly, username_fileLate, getTime_dateEarly, getTime_dateLate,
      keep_sampleRaw, keep_sampleRaw_lit, trim_sampleText, sampleRaw, updateSessionStart,
      flattenStart, jsSub, jsAdd, jsDivBy, jsTime, jsDateLt, absSegment]
  have hmin : minTimeMs [fileLate, fileEarly] = 0 := by decide
  have hR : [fileLate, fileEarly].flatMap
        (clipContribution (fun q => q) okApi (minTimeMs [fileLate, fileEarly]))
      = [{ speaker := "bob", text := "hello there", startTime := some 11, endTime := some 12,
            confidence := 0, noSpeechProb := 0 },
          { speaker := "ann", text := "hello there", startTime := some 1, endTime := some 2,
            confidence := 0, noSpeechProb := 0 }] := by
    rw [hmin]
    norm_num [clipContribution, okApi, parsedTime_fileEarly, parsedTime_fileLate,
      username_fileEarly, username_fileLate, getTime_dateEarly, getTime_dateLate,
      keep_sampleRaw, keep_sampleRaw_lit, trim_sampleText, sampleRaw, jsAdd, jsDivBy,
      absSegment]
  rw [hL, hR]
  intro h
  rw [List.cons.injEq, TranscriptionSegment.mk.injEq] at h
  have := h.1.2.2.1
  norm_num at this

/-- Claim C1 witness: the amended (sorted-enumeration) rebasing law at a
concrete two-clip folder listed in ascending start-time order. -/
theorem claim1_rebase_sorted_enumeration_witness :
    (∀ f ∈ [fileEarly, fileLate], (parsedTime f).isSome) ∧
      ([fileEarly, fileLate].Pairwise fun a b => timeMsOf a ≤ timeMsOf b) ∧
      (transcribeFold (fun q => q) okApi [fileEarly, fileLate]).segments
        = [fileEarly, fileLate].flatMap
            (clipContribution (fun q => q) okApi (minTimeMs [fileEarly, fileLate])) :=
  ⟨by decide, by decide,
    claim1_rebase_sorted_enumeration (fun q => q) okApi [fileEarly, fileLate]
      (by decide) (by decide)⟩

/-! ## Claim C7: per-clip transcription failures are isolated -/

theorem stepFile_api_congr (exp : ℚ → ℚ)
    (api api2 : String → Except String (List RawSegment)) (g : String) (e : String)
    (h1 : api g = Except.error e) (h2 : api2 g = Except.ok [])
    (h3 : ∀ f, f ≠ g → api2 f = api f) (st : TState) (f : String) :
    stepFile exp api2 st f = stepFile exp api st f := by
  by_cases hf : f = g
  · subst hf
    rcases hp : parseTimestampFromFilename f with err | ts
    · simp [stepFile, hp]
    · simp [stepFile, hp, h1, h2]
  · simp only [stepFile, h3 f hf]

/-- Claim C7: a transcription-capability failure on one clip does not
abort the run and behaves exactly as if that clip had returned no
segments: the per-file loop (and with it the whole
`transcribeSessionFolder` result — same surviving segments from every
other clip, same transcript or same "nothing transcribable" outcome) is
unchanged when the failing capability call is replaced by an empty
success, all other clips untouched. -/
theorem claim7_clip_failure_isolated (exp : ℚ → ℚ)
    (api api2 : String → Except String (List RawSegment)) (g : String) (e : String)
    (h1 : api g = Except.error e) (h2 : api2 g = Except.ok [])
    (h3 : ∀ f, f ≠ g → api2 f = api f) (files listing : List String) :
    transcribeFold exp api files = transcribeFold exp api2 files ∧
      transcribeSessionFolder exp api listing = transcribeSessionFolder exp api2 listing := by
  have hfold : ∀ (fs : List String) (st : TState),
      fs.foldl (stepFile exp api) st = fs.foldl (stepFile exp api2) st := by
    intro fs
    induction fs with
    | nil => intro st; rfl
    | cons f fs ih =>
      intro st
      rw [List.foldl_cons, List.foldl_cons,
        stepFile_api_congr exp api api2 g e h1 h2 h3 st f, ih]
  constructor
  · rw [transcribeFold, transcribeFold, hfold]
  · have hfold2 : transcribeFold exp api (oggFiles listing)
        = transcribeFold exp api2 (oggFiles listing) := by
      rw [transcribeFold, transcribeFold, hfold]
    simp only [transcribeSessionFolder, hfold2]

def fileThird : String := "1970-01-01T00:00:20.000Z_cat.ogg"

/-- A capability that fails on `fileLate` and succeeds elsewhere. -/
def failApi : String → Except String (List RawSegment) := fun f =>
  if f = fileLate then Except.error ("Groq API error (500): boom")
  else Except.ok [sampleRaw]

/-- `failApi` with the failing clip patched to an empty success. -/
def failApiPatched : String → Except String (List RawSegment) := fun f =>
  if f = fileLate then Except.ok [] else failApi f

theorem failApi_fails : failApi fileLate = Except.error ("Groq API error (500): boom") := by
  simp [failApi]

theorem failApiPatched_empty : failApiPatched fileLate = Except.ok [] := by
  simp [failApiPatched]

theorem failApiPatched_agrees : ∀ f, f ≠ fileLate → failApiPatched f = failApi f := by
  intro f hf
  simp [failApiPatched, hf]

/-- Claim C7 witness: three clips with the middle one failing; the run is
identical to the patched run, and the surviving segments of the other two
clips (speakers ann and cat) are all present. -/
theorem claim7_clip_failure_isolated_witness :
    failApi fileLate = Except.error ("Groq API error (500): boom") ∧
      failApiPatched fileLate = Except.ok [] ∧
      (transcribeFold (fun q => q) failApi [fileEarly, fileLate, fileThird]
          = transcribeFold (fun q => q) failApiPatched [fileEarly, fileLate, fileThird] ∧
        transcribeSessionFolder (fun q => q) failApi [fileEarly, fileLate, fileThird]
          = transcribeSessionFolder (fun q => q) failApiPatched
              [fileEarly, fileLate, fileThird]) ∧
      (transcribeFold (fun q => q) failApi [fileEarly, fileLate, fileThird]).segments.map
          (fun s => s.speaker)
        = ["ann", "cat"] :=
  ⟨failApi_fails, failApiPatched_empty,
    claim7_clip_failure_isolated (fun q => q) failApi failApiPatched fileLate
      ("Groq API error (500): boom") failApi_fails failApiPatched_empty
      failApiPatched_agrees [fileEarly, fileLate, fileThird] [fileEarly, fileLate, fileThird],
    by
      have hpT : parseTimestampFromFilename fileThird
          = Except.ok (some ⟨1970, 1, 1, 0, 0, 20, 0⟩) := by decide
      have huT : extractUsernameFromFilename fileThird = "cat" := by decide
      have htT : (⟨1970, 1, 1, 0, 0, 20, 0⟩ : DateMs).getTime = 20000 := by decide
      have hApiE : failApi fileEarly = Except.ok [sampleRaw] := by decide
      have hApiT : failApi fileThird = Except.ok [sampleRaw] := by decide
      norm_num [transcribeFold, stepFile, hpT, huT, htT, hApiE, hApiT, failApi_fails,
        parse_fileEarly, parse_fileLate, username_fileEarly, username_fileLate,
        getTime_dateEarly, getTime_dateLate, keep_sampleRaw, keep_sampleRaw_lit, sampleRaw,
        updateSessionStart, flattenStart, jsSub, jsAdd, jsDivBy, jsTime, jsDateLt,
        absSegment]⟩

/-! ## Claim C8: empty clip set fails both pipelines with no-input errors -/

/-- Claim C8: a session folder whose listing holds no clip files (no
`.ogg` entries other than prior `mixed_` output) makes the Timeline Mixer
fail with "No OGG files found to mix" having written nothing, and the
Transcript Assembler fail with "No OGG files found to transcribe" (an
error result precedes the transcript write, so no transcript.md is
created either). -/
theorem claim8_no_input_errors (listing : List String) (enc : EncodeOutcome)
    (exp : ℚ → ℚ) (api : String → Except String (List RawSegment))
    (h : oggFiles listing = []) :
    mixSessionFolder enc listing
        = { result := Except.error ("No OGG files found to mix"), written := [] } ∧
      transcribeSessionFolder exp api listing
        = Except.error ("No OGG files found to transcribe") := by
  constructor
  · simp [mixSessionFolder, h]
  · simp [transcribeSessionFolder, h]

/-- Claim C8 witness: a folder holding only a prior mixed output, the two
markdown artifacts and a stray file. -/
theorem claim8_no_input_errors_witness :
    oggFiles ["mixed_timeline.ogg", "transcript.md", "summary.md", "notes.txt"] = [] ∧
      mixSessionFolder EncodeOutcome.success
          ["mixed_timeline.ogg", "transcript.md", "summary.md", "notes.txt"]
        = { result := Except.error ("No OGG files found to mix"), written := [] } ∧
      transcribeSessionFolder (fun q => q) okApi
          ["mixed_timeline.ogg", "transcript.md", "summary.md", "notes.txt"]
        = Except.error ("No OGG files found to transcribe") :=
  ⟨by decide,
    (claim8_no_input_errors _ EncodeOutcome.success (fun q => q) okApi (by decide)).1,
    (claim8_no_input_errors _ EncodeOutcome.success (fun q => q) okApi (by decide)).2⟩

/-! ## Claim C9: single-clip copy; encoder failure aborts but cleans nothing -/

theorem parseClips_ok (l : List String)
    (h : ∀ f ∈ l, ∃ v, parseTimestampFromFilename f = Except.ok v) :
    ∃ parsed, parseClips l = Except.ok parsed := by
  induction l with
  | nil => exact ⟨[], rfl⟩
  | cons x xs ih =>
    obtain ⟨v, hv⟩ := h x (by simp)
    obtain ⟨ps, hps⟩ := ih fun g hg => h g (by simp [hg])
    refine ⟨{ filename := x, timestamp := v, offsetMs := some 0 } :: ps, ?_⟩
    simp [parseClips, hv, hps]

/-- Claim C9 (amended): a folder with exactly one clip is mixed by a
verbatim `copyFileSync` of that clip to `mixed_timeline.ogg`; on a
multi-clip folder whose filenames all decode, an encoder failure rejects
the whole mix with the descriptive error `Audio mixing failed: <msg>` —
but the encode writes directly at the final `mixed_timeline.ogg` path and
the error handler performs no cleanup, so whatever partial file the
failed encoder left behind remains in the folder. -/
theorem claim9_mix_copy_and_error_abort (listing : List String) (msg : String)
    (leavesTruncated : Bool) (enc : EncodeOutcome) :
    (∀ f, oggFiles listing = [f] →
        mixSessionFolder enc listing
          = { result := Except.ok ("mixed_timeline.ogg")
              written := [("mixed_timeline.ogg", FileContents.copyOf f)] }) ∧
      (2 ≤ (oggFiles listing).length →
        (∀ f ∈ oggFiles listing, ∃ v, parseTimestampFromFilename f = Except.ok v) →
        mixSessionFolder (EncodeOutcome.failure msg leavesTruncated) listing
          = { result := Except.error ("Audio mixing failed: " ++ msg)
              written :=
                if leavesTruncated then [("mixed_timeline.ogg", FileContents.truncatedOutput)]
                else [] }) := by
  constructor
  · intro f hf
    simp [mixSessionFolder, hf]
  · intro hlen hparse
    rcases hogg : oggFiles listing with _ | ⟨f0, _ | ⟨f1, fs⟩⟩
    · rw [hogg] at hlen; simp at hlen
    · rw [hogg] at hlen; simp at hlen
    · rw [hogg] at hparse
      obtain ⟨parsed, hparsed⟩ := parseClips_ok (f0 :: f1 :: fs) hparse
      simp [mixSessionFolder, hogg, hparsed]

/-- Claim C9 counterexample: a concrete failing multi-clip mix in which
the encoder (as FFmpeg may) leaves a truncated file at its configured
output path: the run rejects with the descriptive error, yet a partial
`mixed_timeline.ogg` remains in the session folder — contradicting "no
partial output is left in place". -/
theorem claim9_counterexample :
    (mixSessionFolder (EncodeOutcome.failure ("Output stream closed") true)
          [fileEarly, fileLate]).result
        = Except.error ("Audio mixing failed: Output stream closed") ∧
      ("mixed_timeline.ogg", FileContents.truncatedOutput) ∈
        (mixSessionFolder (EncodeOutcome.failure ("Output stream closed") true)
          [fileEarly, fileLate]).written := by
  have hogg : oggFiles [fileEarly, fileLate] = [fileEarly, fileLate] := by decide
  have hclips : parseClips [fileEarly, fileLate]
      = Except.ok [{ filename := fileEarly, timestamp := some dateEarly, offsetMs := some 0 },
          { filename := fileLate, timestamp := some dateLate, offsetMs := some 0 }] := by
    decide
  constructor
  · norm_num [mixSessionFolder, hogg, hclips]
    decide
  · norm_num [mixSessionFolder, hogg, hclips]

/-- Claim C9 witness: the amended statement at concrete folders — a
single-clip folder is mixed by verbatim copy, and a failing two-clip mix
rejects with the descriptive error (here with an encoder that leaves
nothing behind, so nothing is written). -/
theorem claim9_mix_copy_and_error_abort_witness :
    oggFiles [fileEarly] = [fileEarly] ∧
      mixSessionFolder EncodeOutcome.success [fileEarly]
        = { result := Except.ok ("mixed_timeline.ogg")
            written := [("mixed_timeline.ogg", FileContents.copyOf fileEarly)] } ∧
      2 ≤ (oggFiles [fileEarly, fileLate]).length ∧
      mixSessionFolder (EncodeOutcome.failure ("enc error") false) [fileEarly, fileLate]
        = { result := Except.error ("Audio mixing failed: enc error"), written := [] } :=
  ⟨by decide,
    (claim9_mix_copy_and_error_abort [fileEarly] ("enc error") false
        EncodeOutcome.success).1 fileEarly (by decide),
    by decide,
    by
      have := (claim9_mix_copy_and_error_abort [fileEarly, fileLate] ("enc error") false
        (EncodeOutcome.failure ("enc error") false)).2 (by decide) ?_
      · simpa using this
      · intro f hf
        have hogg : oggFiles [fileEarly, fileLate] = [fileEarly, fileLate] := by decide
        rw [hogg] at hf
        simp only [List.mem_cons, List.not_mem_nil, or_false] at hf
        rcases hf with rfl | rfl
        · exact ⟨some dateEarly, parse_fileEarly⟩
        · exact ⟨some dateLate, parse_fileLate⟩⟩

/-! ## Claim C10: the per-segment keep rule and derived fields -/

/-- Claim C10: for a clip whose filename decodes and whose transcription
call succeeds with `raws`, the loop appends exactly the image of the raw
segments that pass the filter — a raw segment is kept iff its no-speech
probability is at most 0.3, its trimmed text is strictly longer than 3
characters, and its clip-relative duration exceeds 0.5 s — and every kept
segment carries confidence `exp(avg_logprob)` and the trimmed text. -/
theorem claim10_segment_filter_rule (exp : ℚ → ℚ)
    (api : String → Except String (List RawSegment)) (st : TState) (f : String)
    (ts : Option DateMs) (raws : List RawSegment)
    (hp : parseTimestampFromFilename f = Except.ok ts)
    (ha : api f = Except.ok raws) :
    (∃ offsetMs,
        (stepFile exp api st f).segments
          = st.segments ++ (raws.filter keepSegment).map
              (absSegment exp (extractUsernameFromFilename f) offsetMs)) ∧
      (∀ r : RawSegment, keepSegment r = true ↔
          (r.no_speech_prob ≤ 3 / 10 ∧ 3 < (jsTrim r.text).length ∧
            1 / 2 < r.endSec - r.start)) ∧
      (∀ (sp : String) (off : Option ℚ) (r : RawSegment),
          (absSegment exp sp off r).confidence = exp r.avg_logprob ∧
            (absSegment exp sp off r).text = jsTrim r.text) := by
  refine ⟨⟨jsSub (jsTime ts)
      (jsTime (flattenStart (updateSessionStart st.sessionStart ts))), ?_⟩, ?_, ?_⟩
  · simp [stepFile, hp, ha]
  · intro r
    simp [keepSegment, MAX_NO_SPEECH_PROB, and_assoc]
  · intro sp off r
    exact ⟨rfl, rfl⟩

/-- Claim C10 witness: the keep rule at a concrete clip whose single raw
segment passes every filter condition. -/
theorem claim10_segment_filter_rule_witness :
    parseTimestampFromFilename fileEarly = Except.ok (some dateEarly) ∧
      okApi fileEarly = Except.ok [sampleRaw] ∧
      ((∃ offsetMs,
          (stepFile (fun q => q) okApi { sessionStart := none, segments := [] }
              fileEarly).segments
            = [] ++ ([sampleRaw].filter keepSegment).map
                (absSegment (fun q => q) (extractUsernameFromFilename fileEarly) offsetMs)) ∧
        (∀ r : RawSegment, keepSegment r = true ↔
            (r.no_speech_prob ≤ 3 / 10 ∧ 3 < (jsTrim r.text).length ∧
              1 / 2 < r.endSec - r.start)) ∧
        (∀ (sp : String) (off : Option ℚ) (r : RawSegment),
            (absSegment (fun q => q) sp off r).confidence = r.avg_logprob ∧
              (absSegment (fun q => q) sp off r).text = jsTrim r.text)) :=
  ⟨parse_fileEarly, rfl,
    claim10_segment_filter_rule (fun q => q) okApi
      { sessionStart := none, segments := [] } fileEarly (some dateEarly) [sampleRaw]
      parse_fileEarly rfl⟩

end EchoLog
